import Mathlib

/-!
Shallow embedding of the scribe buffer core (src/buffer/buffer.rs) and of the
collaborators its specification describes (gap store, cursor, path handling,
tokenization boundary).  The `Buffer` façade is translated from the Rust
source; the gap store, cursor movement, path and file-system pieces are not
part of the repository snapshot and are modelled from the specification at
their observable interfaces.
-/

set_option autoImplicit false

namespace Scribe

/-- A zero-based (line, offset) coordinate into the document, as in the
`Position` struct used by `buffer.rs`. -/
structure Position where
  line : Nat
  offset : Nat
deriving DecidableEq, Repr

/-- An ordered pair of positions denoting a span, as in the `Range` struct
used by `buffer.rs` (`start`/`end`; `end` is a Lean keyword, hence `stop`). -/
structure Range where
  start : Position
  stop : Position
deriving DecidableEq, Repr

/-- Modelled from the spec: the gap store is "logically an ordered sequence of
Unicode scalar values"; the gap holds no meaningful characters and the
snapshot is the logical text in document order.  We therefore model a
`GapBuffer` by its logical content. -/
abbrev GapBuffer := List Char

/-- Modelled from the spec: the line-delimited view of the content.  Splitting
on newline characters; a document always has at least one (possibly empty)
line, and a trailing newline opens a final empty line. -/
def toLines : List Char → List (List Char)
  | [] => [[]]
  | c :: rest =>
    if c = '\n' then [] :: toLines rest
    else
      match toLines rest with
      | [] => [[c]]
      | l :: ls => (c :: l) :: ls

/-- Re-joins a line list with newline separators; inverse of `toLines`. -/
def joinLines : List (List Char) → List Char
  | [] => []
  | [l] => l
  | l :: ls => l ++ '\n' :: joinLines ls

/-- Number of lines of a document. -/
def numLines (s : List Char) : Nat := (toLines s).length

/-- Character count of line `n` of a document (0 if the line does not exist). -/
def lineLength (s : List Char) (n : Nat) : Nat := ((toLines s).getD n []).length

/-- Modelled from the spec: `in_bounds(pos)` is true iff `pos.line` indexes an
existing line and `pos.offset` is at most that line's character count (offset
equal to the length denotes the position just past the last character). -/
def inBounds (s : List Char) (p : Position) : Prop :=
  p.line < numLines s ∧ p.offset ≤ lineLength s p.line

instance (s : List Char) (p : Position) : Decidable (inBounds s p) := by
  unfold inBounds; infer_instance

/-- Linear character offset of an in-bounds position, walking the line list:
all earlier lines contribute their length plus one for the newline. -/
def posToOffsetCore : List (List Char) → Nat → Nat → Nat
  | _, 0, off => off
  | [], _ + 1, off => off
  | l :: rest, n + 1, off => l.length + 1 + posToOffsetCore rest n off

/-- Modelled from the spec: positions are resolved to "valid linear offsets
once clamped to content bounds"; a position beyond the document "is clamped to
the document end". -/
def posToOffset (s : List Char) (p : Position) : Nat :=
  if inBounds s p then posToOffsetCore (toLines s) p.line p.offset else s.length

namespace GapBuffer

/-- Snapshot of the logical text (the spec's `to_string`): in this model the
store is already its logical content. -/
def to_string (s : GapBuffer) : List Char := s

/-- Modelled from the spec: `insert(text, at)` requires `in_bounds(at)`; "if
not in bounds, the insertion is a no-op with no error raised"; on success the
text is copied in at the position's linear offset. -/
def insert (s : GapBuffer) (text : List Char) (at_ : Position) : GapBuffer :=
  if inBounds s at_ then
    s.take (posToOffset s at_) ++ text ++ s.drop (posToOffset s at_)
  else s

/-- Modelled from the spec: `delete(range)` removes the characters between
`start` (inclusive) and `end` (exclusive) once both are resolved to linear
offsets clamped to content bounds. -/
def delete (s : GapBuffer) (r : Range) : GapBuffer :=
  s.take (posToOffset s r.start) ++ s.drop (posToOffset s r.stop)

end GapBuffer

/-- Token category, modelled from the spec's boundary type: "an enumerated tag
(e.g., Text, and lexer-specific categories)"; `other` stands for the
lexer-specific tags. -/
inductive Category where
  | Text : Category
  | other : Nat → Category
deriving DecidableEq, Repr

/-- The token boundary type: a lexeme and its category. -/
structure Token where
  lexeme : List Char
  category : Category
deriving DecidableEq, Repr

/-- Modelled from the spec: an `old_io` path is a byte sequence. -/
structure Path where
  bytes : List Nat
deriving DecidableEq, Repr

/-- The buffer façade, translated from the `Buffer` struct of `buffer.rs`:
shared store (modelled by its logical content here; sharing itself is made
explicit in the reference model below), optional lexer, optional path, and
the cursor's position. -/
structure Buffer where
  data : GapBuffer
  lexer : Option (List Char → List Token)
  path : Option Path
  cursor : Position

namespace Buffer

/-- `Buffer::data`: the contents of the buffer as a string. -/
def data_ (b : Buffer) : List Char := GapBuffer.to_string b.data

/-- `Buffer::insert`: delegates to the store's insert at the cursor position;
the cursor itself is not touched. -/
def insert (b : Buffer) (text : List Char) : Buffer :=
  { b with data := GapBuffer.insert b.data text b.cursor }

/-- `Buffer::delete`: deletes the character right of the cursor; if that end
position is not in bounds, the end jumps to the start of the next line
(bounds-checking of the resulting range is left to the store's delete). -/
def delete (b : Buffer) : Buffer :=
  let end0 : Position := { line := b.cursor.line, offset := b.cursor.offset + 1 }
  let end1 : Position :=
    if inBounds b.data end0 then end0 else { line := end0.line + 1, offset := 0 }
  { b with data := GapBuffer.delete b.data { start := b.cursor, stop := end1 } }

/-- `Buffer::tokens`: the lexer's tokenization of the snapshot when a lexer
was resolved, otherwise a single text-category token holding the snapshot. -/
def tokens (b : Buffer) : List Token :=
  match b.lexer with
  | some lexer => lexer b.data_
  | none => [{ lexeme := b.data_, category := Category.Text }]

/-- Modelled from the spec: `move_to(pos)` requires the target be in bounds;
"out-of-bounds targets are rejected as a no-op". -/
def move_to (b : Buffer) (p : Position) : Buffer :=
  if inBounds b.data p then { b with cursor := p } else b

/-- Modelled from the spec: `move_to_end_of_line` sets the offset to the
current line's character count, read from the shared store. -/
def move_to_end_of_line (b : Buffer) : Buffer :=
  { b with cursor := { b.cursor with offset := lineLength b.data b.cursor.line } }

/-- Modelled from the spec: `move_down` shifts the line down by one, clamping
the offset to the destination line's length; movement always leaves the
cursor in bounds, so at the last line it is a no-op. -/
def move_down (b : Buffer) : Buffer :=
  if b.cursor.line + 1 < numLines b.data then
    { b with
      cursor :=
        { line := b.cursor.line + 1
          offset := min b.cursor.offset (lineLength b.data (b.cursor.line + 1)) } }
  else b

end Buffer

/-- `buffer::new`: an empty buffer, cursor at the origin, no path, no lexer. -/
def new : Buffer :=
  { data := [], lexer := none, path := none, cursor := { line := 0, offset := 0 } }

/-- The editing operations a caller can drive a buffer with. -/
inductive Edit where
  | insert : List Char → Edit
  | delete : Edit
  | move_to : Position → Edit
  | move_down : Edit
  | move_to_end_of_line : Edit

/-- One editing step on the buffer façade. -/
def applyEdit (b : Buffer) : Edit → Buffer
  | .insert text => b.insert text
  | .delete => b.delete
  | .move_to p => b.move_to p
  | .move_down => b.move_down
  | .move_to_end_of_line => b.move_to_end_of_line

/-- A sequence of editing steps. -/
def applyEdits (b : Buffer) (es : List Edit) : Buffer :=
  es.foldl applyEdit b

/-- Concatenation of the lexemes of a token list, in order. -/
def concatLexemes (ts : List Token) : List Char :=
  ts.foldr (fun t acc => t.lexeme ++ acc) []

/-- The round-trip contract the spec states for the tokenization boundary:
either no lexer was resolved, or the (external) lexer's lexemes concatenate
back to its input.  Modelled from the spec: the lexers themselves live in the
external `luthor` crate and are specified only by this guarantee. -/
def lexerOk (b : Buffer) : Prop :=
  b.lexer = none ∨
    ∃ lexer, b.lexer = some lexer ∧ ∀ s : List Char, concatLexemes (lexer s) = s

/-- Modelled from the spec: an I/O error value; its payload is irrelevant to
the buffer core, which only passes it through. -/
structure IoError where
  code : Nat
deriving DecidableEq, Repr

/-- The empty path substituted by `save` when no path is set
(`Path::new("")`). -/
def emptyPath : Path := { bytes := [] }

/-- Update the content stored at a path. -/
def setFile (files : List (Path × List Char)) (p : Path) (d : List Char) :
    List (Path × List Char) :=
  (p, d) :: files.filter (fun q => q.1 ≠ p)

/-- Content stored at a path, if any. -/
def getFile (files : List (Path × List Char)) (p : Path) : Option (List Char) :=
  (files.find? (fun q => q.1 = p)).map (fun q => q.2)

/-- Modelled from the spec: the file system `save` talks to, as an oracle —
stored contents plus, per path, whether opening for writing and whether
writing fail (the error the OS would produce).  What a failed write leaves on
disk is unspecified by the spec; this model leaves the store unchanged. -/
structure Fs where
  files : List (Path × List Char)
  openWriteError : Path → Option IoError
  writeError : Path → Option IoError

/-- `Buffer::save`, translated from `buffer.rs`: use the buffer's path or the
empty path when unset; opening errors and write errors are returned to the
caller; on success the full snapshot is written as the file's bytes and
`none` is returned. -/
def Buffer.save (fs : Fs) (b : Buffer) : Option IoError × Fs :=
  let path := match b.path with
    | some p => p
    | none => emptyPath
  match fs.openWriteError path with
  | some error => (some error, fs)
  | none =>
    match fs.writeError path with
    | some error => (some error, fs)
    | none => (none, { fs with files := setFile fs.files path b.data_ })

/-- Is a byte a UTF-8 continuation byte (`10xxxxxx`)? -/
def isCont (b : Nat) : Bool := 0x80 ≤ b && b < 0xC0

/-- Modelled from the spec: strict UTF-8 decoding of a byte sequence
(`std::str::from_utf8`), rejecting invalid leads, truncated or non-continuation
tails, overlong forms, surrogates and out-of-range code points. -/
def utf8Decode : List Nat → Option (List Char)
  | [] => some []
  | b0 :: rest =>
    if b0 < 0x80 then
      (utf8Decode rest).map (fun cs => Char.ofNat b0 :: cs)
    else if b0 < 0xC2 then none
    else if b0 < 0xE0 then
      match rest with
      | b1 :: rest2 =>
        if isCont b1 then
          (utf8Decode rest2).map (fun cs => Char.ofNat ((b0 - 0xC0) * 64 + (b1 - 0x80)) :: cs)
        else none
      | [] => none
    else if b0 < 0xF0 then
      match rest with
      | b1 :: b2 :: rest3 =>
        if isCont b1 && isCont b2 then
          let cp := (b0 - 0xE0) * 4096 + (b1 - 0x80) * 64 + (b2 - 0x80)
          if cp < 0x800 ∨ (0xD800 ≤ cp ∧ cp < 0xE000) then none
          else (utf8Decode rest3).map (fun cs => Char.ofNat cp :: cs)
        else none
      | _ => none
    else if b0 < 0xF5 then
      match rest with
      | b1 :: b2 :: b3 :: rest4 =>
        if isCont b1 && isCont b2 && isCont b3 then
          let cp := (b0 - 0xF0) * 262144 + (b1 - 0x80) * 4096 + (b2 - 0x80) * 64 + (b3 - 0x80)
          if cp < 0x10000 ∨ 0x110000 ≤ cp then none
          else (utf8Decode rest4).map (fun cs => Char.ofNat cp :: cs)
        else none
      | _ => none
    else none

/-- Modelled from the spec: the last path component of a byte path, when one
is present (a path ending in a separator, or an empty path, has none). -/
def pathFilename (p : Path) : Option (List Nat) :=
  match (p.bytes.splitOn 47).getLast? with
  | some c => if c = [] then none else some c
  | none => none

/-- `Buffer::filename`, translated from `buffer.rs`: the filename portion of
the path, when the path is set, has a filename, and that filename decodes as
UTF-8; every failure collapses to `none`. -/
def Buffer.filename (b : Buffer) : Option (List Char) :=
  match b.path with
  | some path =>
    match pathFilename path with
    | some fname =>
      match utf8Decode fname with
      | some utf8_filename => some utf8_filename
      | none => none
    | none => none
  | none => none

/-!
Reference model of the `Rc<RefCell<GapBuffer>>` sharing: the heap of stores
is explicit, and buffer and cursor each hold a reference (an index) into it,
exactly as both hold a clone of the same `Rc` in `buffer.rs`.
-/

/-- A reference to a store in the heap (the identity of an `Rc` cell). -/
abbrev StoreRef := Nat

/-- The heap of gap-buffer cells. -/
structure Heap where
  stores : List GapBuffer
deriving Repr

/-- Content of the store a reference designates. -/
def Heap.get (h : Heap) (r : StoreRef) : GapBuffer := h.stores.getD r []

/-- Replace the content of the store a reference designates. -/
def Heap.set (h : Heap) (r : StoreRef) (s : GapBuffer) : Heap :=
  { stores := h.stores.set r s }

/-- The `Cursor` struct of the source: a store reference plus a position. -/
structure CursorR where
  data : StoreRef
  position : Position
deriving DecidableEq, Repr

/-- The `Buffer` struct with the store sharing kept explicit. -/
structure BufferR where
  data : StoreRef
  lexer : Option (List Char → List Token)
  path : Option Path
  cursor : CursorR

/-- `buffer::new` in the reference model: one fresh store cell, referenced by
both the buffer and its cursor (`data.clone()` of the same `Rc`). -/
def newR (h : Heap) : Heap × BufferR :=
  let r := h.stores.length
  ({ stores := h.stores ++ [[]] },
   { data := r, lexer := none, path := none,
     cursor := { data := r, position := { line := 0, offset := 0 } } })

/-- `buffer::from_file` in the reference model: the file's contents and the
lexer resolved for the path arrive from the outside (file reading and type
detection are external collaborators); one fresh store cell holds the
contents and both the buffer and its cursor reference it. -/
def from_fileR (h : Heap) (contents : List Char) (path : Path)
    (lexer : Option (List Char → List Token)) : Heap × BufferR :=
  let r := h.stores.length
  ({ stores := h.stores ++ [contents] },
   { data := r, lexer := lexer, path := some path,
     cursor := { data := r, position := { line := 0, offset := 0 } } })

/-- One editing step in the reference model; mutations go through the
buffer's store reference, cursor movement reads through the cursor's own
store reference, mirroring the borrows in the source. -/
def applyEditR (h : Heap) (b : BufferR) : Edit → Heap × BufferR
  | .insert text =>
    (h.set b.data (GapBuffer.insert (h.get b.data) text b.cursor.position), b)
  | .delete =>
    let s := h.get b.data
    let c := b.cursor.position
    let end0 : Position := { line := c.line, offset := c.offset + 1 }
    let end1 : Position :=
      if inBounds s end0 then end0 else { line := end0.line + 1, offset := 0 }
    (h.set b.data (GapBuffer.delete s { start := c, stop := end1 }), b)
  | .move_to p =>
    if inBounds (h.get b.cursor.data) p then
      (h, { b with cursor := { b.cursor with position := p } })
    else (h, b)
  | .move_down =>
    let s := h.get b.cursor.data
    if b.cursor.position.line + 1 < numLines s then
      (h, { b with
              cursor :=
                { b.cursor with
                  position :=
                    { line := b.cursor.position.line + 1
                      offset := min b.cursor.position.offset
                        (lineLength s (b.cursor.position.line + 1)) } } })
    else (h, b)
  | .move_to_end_of_line =>
    let s := h.get b.cursor.data
    (h, { b with
            cursor :=
              { b.cursor with
                position :=
                  { b.cursor.position with
                    offset := lineLength s b.cursor.position.line } } })

/-- A sequence of editing steps in the reference model. -/
def applyEditsR (hb : Heap × BufferR) (es : List Edit) : Heap × BufferR :=
  es.foldl (fun hb e => applyEditR hb.1 hb.2 e) hb

/-- The sample text of the repository's own delete tests. -/
def sampleText : List Char := ("scribe\n library").toList

/-- A fresh buffer filled with the sample text (cursor still at the origin). -/
def sampleBuffer : Buffer := new.insert sampleText

/-- The sample buffer with the cursor moved to the end of line 0. -/
def sampleJoin : Buffer := sampleBuffer.move_to_end_of_line

/-- The sample buffer with the cursor moved to the end of the last line. -/
def sampleEnd : Buffer := (sampleBuffer.move_down).move_to_end_of_line

/-- A buffer whose path is the byte string "a/b". -/
def fileBuffer : Buffer :=
  { data := [], lexer := none, path := some { bytes := [97, 47, 98] },
    cursor := { line := 0, offset := 0 } }

/-- A buffer whose path is the lone byte 0xFF, which is not valid UTF-8. -/
def badNameBuffer : Buffer :=
  { data := [], lexer := none, path := some { bytes := [255] },
    cursor := { line := 0, offset := 0 } }

/-! ### Helper lemmas about the line decomposition -/

theorem toLines_ne_nil (s : List Char) : toLines s ≠ [] := by
  cases s with
  | nil => simp [toLines]
  | cons c rest =>
    simp only [toLines]
    split
    · simp
    · split <;> simp

theorem joinLines_cons_cons (l l2 : List Char) (ls : List (List Char)) :
    joinLines (l :: l2 :: ls) = l ++ '\n' :: joinLines (l2 :: ls) := rfl

theorem joinLines_toLines (s : List Char) : joinLines (toLines s) = s := by
  induction s with
  | nil => rfl
  | cons c rest ih =>
    by_cases hc : c = '\n'
    · subst hc
      rw [show toLines ('\n' :: rest) = [] :: toLines rest from by simp [toLines]]
      cases h : toLines rest with
      | nil => exact absurd h (toLines_ne_nil rest)
      | cons l ls =>
        rw [h] at ih
        rw [joinLines_cons_cons, ih]
        rfl
    · simp only [toLines, if_neg hc]
      cases h : toLines rest with
      | nil => exact absurd h (toLines_ne_nil rest)
      | cons l ls =>
        rw [h] at ih
        cases ls with
        | nil =>
          simp only [joinLines] at ih ⊢
          rw [ih]
        | cons l2 ls2 =>
          rw [joinLines_cons_cons] at ih ⊢
          rw [List.cons_append, ih]

theorem posToOffsetCore_succ_zero :
    ∀ (ls : List (List Char)) (n : Nat), n + 1 < ls.length →
      posToOffsetCore ls (n + 1) 0 = posToOffsetCore ls n ((ls.getD n []).length) + 1
  | [], n, h => by simp at h
  | l :: rest, 0, _ => by
    simp [posToOffsetCore, List.getD]
  | l :: rest, n + 1, h => by
    have ih := posToOffsetCore_succ_zero rest n (by simpa using h)
    simp only [posToOffsetCore, List.getD_cons_succ, ih]
    omega

theorem join_get_newline :
    ∀ (ls : List (List Char)) (n : Nat), n + 1 < ls.length →
      (joinLines ls)[posToOffsetCore ls n ((ls.getD n []).length)]? = some '\n'
  | [], n, h => by simp at h
  | [l], 0, h => by simp at h
  | l :: l2 :: ls2, 0, _ => by
    rw [joinLines_cons_cons]
    simp only [posToOffsetCore, List.getD_cons_zero]
    rw [List.getElem?_append_right (le_refl l.length)]
    simp
  | l :: l2 :: ls2, n + 1, h => by
    have ih := join_get_newline (l2 :: ls2) n (by simpa using h)
    rw [joinLines_cons_cons]
    simp only [posToOffsetCore, List.getD_cons_succ]
    rw [show l.length + 1 + posToOffsetCore (l2 :: ls2) n (((l2 :: ls2).getD n []).length)
          = l.length + (1 + posToOffsetCore (l2 :: ls2) n (((l2 :: ls2).getD n []).length))
        from by omega]
    rw [List.getElem?_append_right (by omega)]
    simp only [Nat.add_sub_cancel_left]
    rw [Nat.add_comm, List.getElem?_cons_succ]
    exact ih

theorem posToOffsetCore_last :
    ∀ (ls : List (List Char)) (n : Nat), n + 1 = ls.length →
      posToOffsetCore ls n ((ls.getD n []).length) = (joinLines ls).length
  | [], n, h => by simp at h
  | [l], 0, _ => by simp [posToOffsetCore, joinLines, List.getD]
  | l :: l2 :: ls2, 0, h => by simp at h
  | l :: l2 :: ls2, n + 1, h => by
    have ih := posToOffsetCore_last (l2 :: ls2) n (by simpa using h)
    rw [joinLines_cons_cons]
    simp only [posToOffsetCore, List.getD_cons_succ, ih]
    simp
    omega

theorem posToOffset_end_of_line_newline (s : List Char) (l : Nat)
    (h : l + 1 < numLines s) :
    s[posToOffset s { line := l, offset := lineLength s l }]? = some '\n' := by
  have hb : inBounds s { line := l, offset := lineLength s l } :=
    ⟨show l < numLines s by omega, le_refl _⟩
  simp only [posToOffset, if_pos hb]
  have hj := join_get_newline (toLines s) l h
  rw [joinLines_toLines] at hj
  exact hj

theorem posToOffset_next_line (s : List Char) (l : Nat) (h : l + 1 < numLines s) :
    posToOffset s { line := l + 1, offset := 0 } =
      posToOffset s { line := l, offset := lineLength s l } + 1 := by
  have hb1 : inBounds s { line := l + 1, offset := 0 } := ⟨h, Nat.zero_le _⟩
  have hb2 : inBounds s { line := l, offset := lineLength s l } :=
    ⟨show l < numLines s by omega, le_refl _⟩
  simp only [posToOffset, if_pos hb1, if_pos hb2]
  exact posToOffsetCore_succ_zero (toLines s) l h

theorem posToOffset_doc_end (s : List Char) (l : Nat) (h : l + 1 = numLines s) :
    posToOffset s { line := l, offset := lineLength s l } = s.length := by
  have hb : inBounds s { line := l, offset := lineLength s l } :=
    ⟨show l < numLines s by omega, le_refl _⟩
  simp only [posToOffset, if_pos hb]
  have hl := posToOffsetCore_last (toLines s) l h
  rw [joinLines_toLines] at hl
  exact hl

/-! ### Helper lemmas about edits and the reference model -/

theorem applyEdit_lexer (b : Buffer) (e : Edit) : (applyEdit b e).lexer = b.lexer := by
  cases e <;>
    simp only [applyEdit, Buffer.insert, Buffer.delete, Buffer.move_to, Buffer.move_down,
      Buffer.move_to_end_of_line] <;>
    (try split) <;> rfl

theorem applyEdits_lexer (b : Buffer) (es : List Edit) :
    (applyEdits b es).lexer = b.lexer := by
  induction es generalizing b with
  | nil => rfl
  | cons e es ih =>
    show (applyEdits (applyEdit b e) es).lexer = b.lexer
    rw [ih, applyEdit_lexer]

theorem applyEditR_preserves_refs (h : Heap) (b : BufferR) (e : Edit) :
    (applyEditR h b e).2.data = b.data ∧
      (applyEditR h b e).2.cursor.data = b.cursor.data := by
  cases e <;> simp only [applyEditR] <;> (try split) <;> simp

theorem applyEditsR_preserves_refs (hb : Heap × BufferR) (es : List Edit) :
    (applyEditsR hb es).2.data = hb.2.data ∧
      (applyEditsR hb es).2.cursor.data = hb.2.cursor.data := by
  induction es generalizing hb with
  | nil => exact ⟨rfl, rfl⟩
  | cons e es ih =>
    have h1 := applyEditR_preserves_refs hb.1 hb.2 e
    have h2 := ih (applyEditR hb.1 hb.2 e)
    exact ⟨h2.1.trans h1.1, h2.2.trans h1.2⟩

/-! ### The claims -/

/-- Claim C1: for every buffer state reachable by any sequence of edits from a
buffer whose tokenization boundary satisfies the spec's round-trip contract
(in particular any lexer-less buffer, such as `new`), concatenating the
lexemes of `tokens()` in order yields exactly `data()`. -/
theorem tokens_concat_eq_data (b0 : Buffer) (hlex : lexerOk b0) (es : List Edit) :
    concatLexemes ((applyEdits b0 es).tokens) = (applyEdits b0 es).data_ := by
  have hl : (applyEdits b0 es).lexer = b0.lexer := applyEdits_lexer b0 es
  cases hlex with
  | inl hnone =>
    simp only [Buffer.tokens, hl, hnone, concatLexemes, List.foldr]
    exact List.append_nil _
  | inr hsome =>
    obtain ⟨lexer, heq, hcontract⟩ := hsome
    simp only [Buffer.tokens, hl, heq]
    exact hcontract _

/-- Witness for C1 at a concrete edit sequence from the empty buffer. -/
theorem tokens_concat_eq_data_witness :
    concatLexemes ((applyEdits new [Edit.insert sampleText, Edit.delete]).tokens) =
      (applyEdits new [Edit.insert sampleText, Edit.delete]).data_ :=
  tokens_concat_eq_data new (Or.inl rfl) [Edit.insert sampleText, Edit.delete]

/-- Claim C2: with the cursor at the end of a line that has a line below it,
`delete()` targets the start of the next line: the character removed is the
newline at the cursor's linear offset, so the two lines are joined; in
particular the sample buffer "scribe\n library" with the cursor at the end of
line 0 yields "scribe library". -/
theorem delete_at_end_of_line_joins (b : Buffer)
    (hoff : b.cursor.offset = lineLength b.data b.cursor.line)
    (hline : b.cursor.line + 1 < numLines b.data) :
    b.data_[posToOffset b.data b.cursor]? = some '\n' ∧
    b.delete.data_ =
      b.data_.take (posToOffset b.data b.cursor) ++
        b.data_.drop (posToOffset b.data b.cursor + 1) ∧
    b.delete.data =
      GapBuffer.delete b.data
        { start := b.cursor, stop := { line := b.cursor.line + 1, offset := 0 } } ∧
    sampleJoin.delete.data_ = ("scribe library").toList := by
  have hcur : b.cursor = { line := b.cursor.line, offset := lineLength b.data b.cursor.line } := by
    rw [← hoff]
  have hnl : b.data_[posToOffset b.data b.cursor]? = some '\n' := by
    rw [hcur]
    exact posToOffset_end_of_line_newline b.data b.cursor.line hline
  have hend0 : ¬ inBounds b.data { line := b.cursor.line, offset := b.cursor.offset + 1 } := by
    intro hc
    have h2 : b.cursor.offset + 1 ≤ lineLength b.data b.cursor.line := hc.2
    omega
  have hdel : b.delete.data =
      GapBuffer.delete b.data
        { start := b.cursor, stop := { line := b.cursor.line + 1, offset := 0 } } := by
    simp only [Buffer.delete]
    rw [if_neg hend0]
  have hdata : b.delete.data_ =
      b.data_.take (posToOffset b.data b.cursor) ++
        b.data_.drop (posToOffset b.data b.cursor + 1) := by
    show b.delete.data = _
    rw [hdel]
    simp only [GapBuffer.delete]
    rw [posToOffset_next_line b.data b.cursor.line hline]
    rw [← hcur]
    rfl
  exact ⟨hnl, hdata, hdel, by decide⟩

/-- Witness for C2 at the repository's own sample buffer. -/
theorem delete_at_end_of_line_joins_witness :
    (sampleJoin.cursor.offset = lineLength sampleJoin.data sampleJoin.cursor.line ∧
      sampleJoin.cursor.line + 1 < numLines sampleJoin.data) ∧
    sampleJoin.delete.data_ = ("scribe library").toList :=
  ⟨⟨by decide, by decide⟩,
    (delete_at_end_of_line_joins sampleJoin (by decide) (by decide)).2.2.2⟩

/-- Claim C3: with the cursor at the end of the last line of the document,
`delete()` leaves the content unchanged; in particular the sample buffer
"scribe\n library" with the cursor at the end of line 1 is untouched. -/
theorem delete_at_document_end_noop (b : Buffer)
    (hoff : b.cursor.offset = lineLength b.data b.cursor.line)
    (hline : b.cursor.line + 1 = numLines b.data) :
    b.delete.data_ = b.data_ ∧ sampleEnd.delete.data_ = sampleText := by
  have hcur : b.cursor = { line := b.cursor.line, offset := lineLength b.data b.cursor.line } := by
    rw [← hoff]
  have hend0 : ¬ inBounds b.data { line := b.cursor.line, offset := b.cursor.offset + 1 } := by
    intro hc
    have h2 : b.cursor.offset + 1 ≤ lineLength b.data b.cursor.line := hc.2
    omega
  have hend1 : ¬ inBounds b.data { line := b.cursor.line + 1, offset := 0 } := by
    intro hc
    have h1 : b.cursor.line + 1 < numLines b.data := hc.1
    omega
  constructor
  · show b.delete.data = b.data
    simp only [Buffer.delete]
    rw [if_neg hend0]
    simp only [GapBuffer.delete]
    rw [show posToOffset b.data { line := b.cursor.line + 1, offset := 0 } = b.data.length from by
      simp only [posToOffset, if_neg hend1]]
    rw [hcur, posToOffset_doc_end b.data b.cursor.line hline]
    rw [List.take_length, List.drop_length, List.append_nil]
  · decide

/-- Witness for C3 at the repository's own sample buffer. -/
theorem delete_at_document_end_noop_witness :
    (sampleEnd.cursor.offset = lineLength sampleEnd.data sampleEnd.cursor.line ∧
      sampleEnd.cursor.line + 1 = numLines sampleEnd.data) ∧
    sampleEnd.delete.data_ = sampleText :=
  ⟨⟨by decide, by decide⟩,
    (delete_at_document_end_noop sampleEnd (by decide) (by decide)).2⟩

/-- Claim C4: `insert(text)` inserts the text at the cursor's linear offset
but never moves the cursor: its position is unchanged by the call. -/
theorem insert_leaves_cursor_unchanged (b : Buffer) (text : List Char) :
    (b.insert text).cursor = b.cursor ∧
    (inBounds b.data b.cursor →
      (b.insert text).data_ =
        b.data_.take (posToOffset b.data b.cursor) ++ text ++
          b.data_.drop (posToOffset b.data b.cursor)) := by
  refine ⟨rfl, fun hb => ?_⟩
  show GapBuffer.insert b.data text b.cursor = _
  simp only [GapBuffer.insert]
  rw [if_pos hb]
  rfl

/-- Witness for C4 at the empty buffer. -/
theorem insert_leaves_cursor_unchanged_witness :
    (new.insert sampleText).cursor = new.cursor ∧
    (new.insert sampleText).data_ =
      new.data_.take (posToOffset new.data new.cursor) ++ sampleText ++
        new.data_.drop (posToOffset new.data new.cursor) :=
  ⟨(insert_leaves_cursor_unchanged new sampleText).1,
    (insert_leaves_cursor_unchanged new sampleText).2 (by decide)⟩

/-- Claim C5: with no lexer resolved, `tokens()` is exactly one token whose
lexeme is the full snapshot and whose category is Text; in particular a
lexer-less buffer containing "scribe" yields the single token
(lexeme "scribe", category Text). -/
theorem tokens_single_text_when_no_lexer (b : Buffer) (h : b.lexer = none) :
    b.tokens = [{ lexeme := b.data_, category := Category.Text }] ∧
    (new.insert (("scribe").toList)).tokens =
      [{ lexeme := ("scribe").toList, category := Category.Text }] := by
  refine ⟨?_, by decide⟩
  simp only [Buffer.tokens, h]

/-- Witness for C5 at the "scribe" buffer of the repository's own test. -/
theorem tokens_single_text_when_no_lexer_witness :
    (new.insert (("scribe").toList)).tokens =
      [{ lexeme := (new.insert (("scribe").toList)).data_, category := Category.Text }] :=
  (tokens_single_text_when_no_lexer (new.insert (("scribe").toList)) rfl).1

/-- Claim C6: `move_to` at an out-of-bounds position, `insert` at an
out-of-bounds position, and `delete` of a range lying outside the content
bounds are silent no-ops: the buffer (content and cursor) is unchanged and
no error can be raised (the operations are total). -/
theorem out_of_bounds_ops_are_noops (b : Buffer) (p : Position) (text : List Char) (r : Range)
    (hp : ¬ inBounds b.data p)
    (hstart : ¬ inBounds b.data r.start) (hstop : ¬ inBounds b.data r.stop) :
    b.move_to p = b ∧
    GapBuffer.insert b.data text p = b.data ∧
    GapBuffer.delete b.data r = b.data ∧
    Buffer.insert { b with cursor := p } text = { b with cursor := p } := by
  have hins : GapBuffer.insert b.data text p = b.data := by
    simp only [GapBuffer.insert]
    rw [if_neg hp]
  refine ⟨?_, hins, ?_, ?_⟩
  · simp only [Buffer.move_to]
    rw [if_neg hp]
  · simp only [GapBuffer.delete, posToOffset]
    rw [if_neg hstart, if_neg hstop]
    rw [List.take_length, List.drop_length, List.append_nil]
  · simp only [Buffer.insert, hins]

/-- Witness for C6 at a two-line buffer and coordinates beyond it. -/
theorem out_of_bounds_ops_are_noops_witness :
    sampleBuffer.move_to { line := 5, offset := 0 } = sampleBuffer ∧
    GapBuffer.insert sampleBuffer.data (("x").toList) { line := 5, offset := 0 } =
      sampleBuffer.data ∧
    GapBuffer.delete sampleBuffer.data
      { start := { line := 5, offset := 0 }, stop := { line := 6, offset := 0 } } =
      sampleBuffer.data ∧
    Buffer.insert { sampleBuffer with cursor := { line := 5, offset := 0 } } (("x").toList) =
      { sampleBuffer with cursor := { line := 5, offset := 0 } } :=
  out_of_bounds_ops_are_noops sampleBuffer { line := 5, offset := 0 } (("x").toList)
    { start := { line := 5, offset := 0 }, stop := { line := 6, offset := 0 } }
    (by decide) (by decide) (by decide)

/-- Claim C7: `save()` writes the full snapshot to the buffer's path and
returns `none` on success; an open failure or a write failure is returned to
the caller as `some error`. -/
theorem save_surfaces_io_errors (fs : Fs) (b : Buffer) (p : Path) (hp : b.path = some p) :
    (∀ e, fs.openWriteError p = some e → (Buffer.save fs b).1 = some e) ∧
    (∀ e, fs.openWriteError p = none → fs.writeError p = some e →
      (Buffer.save fs b).1 = some e) ∧
    (fs.openWriteError p = none → fs.writeError p = none →
      (Buffer.save fs b).1 = none ∧
      getFile (Buffer.save fs b).2.files p = some b.data_) := by
  refine ⟨?_, ?_, ?_⟩
  · intro e he
    simp [Buffer.save, hp, he]
  · intro e h1 h2
    simp [Buffer.save, hp, h1, h2]
  · intro h1 h2
    constructor
    · simp [Buffer.save, hp, h1, h2]
    · simp [Buffer.save, hp, h1, h2, getFile, setFile]

/-- Witness for C7 on a file system whose opens and writes succeed. -/
theorem save_surfaces_io_errors_witness :
    (Buffer.save
        { files := [], openWriteError := fun _ => none, writeError := fun _ => none }
        { fileBuffer with data := sampleText }).1 = none ∧
    getFile
      (Buffer.save
          { files := [], openWriteError := fun _ => none, writeError := fun _ => none }
          { fileBuffer with data := sampleText }).2.files
      { bytes := [97, 47, 98] } = some ({ fileBuffer with data := sampleText }).data_ :=
  (save_surfaces_io_errors
      { files := [], openWriteError := fun _ => none, writeError := fun _ => none }
      { fileBuffer with data := sampleText } { bytes := [97, 47, 98] } rfl).2.2 rfl rfl

/-- Claim C8: `filename()` is the last path component decoded as UTF-8 when
the path is set, has a filename component, and the bytes decode; in every
failure case it is `none` and no error propagates. -/
theorem filename_follows_path_and_decoding (b : Buffer) :
    (b.path = none → b.filename = none) ∧
    (∀ p, b.path = some p → pathFilename p = none → b.filename = none) ∧
    (∀ p f, b.path = some p → pathFilename p = some f → utf8Decode f = none →
      b.filename = none) ∧
    (∀ p f s, b.path = some p → pathFilename p = some f → utf8Decode f = some s →
      b.filename = some s) := by
  refine ⟨?_, ?_, ?_, ?_⟩ <;> intros <;> simp_all [Buffer.filename]

/-- Witness for C8: a path "a/b" yields the filename "b"; a path made of the
invalid byte 0xFF yields no filename. -/
theorem filename_follows_path_and_decoding_witness :
    fileBuffer.filename = some [('b' : Char)] ∧ badNameBuffer.filename = none :=
  ⟨(filename_follows_path_and_decoding fileBuffer).2.2.2 _ [98] [('b' : Char)]
      rfl (by decide) (by decide),
    (filename_follows_path_and_decoding badNameBuffer).2.2.1 _ [255]
      rfl (by decide) (by decide)⟩

/-- Claim C9: for buffers produced by either constructor, the buffer's store
reference and its cursor's store reference are the same cell, after any
sequence of edits; hence the store content read through the cursor always
equals the content read through the buffer. -/
theorem cursor_and_buffer_share_store (h : Heap) (contents : List Char) (path : Path)
    (lexer : Option (List Char → List Token)) (es : List Edit) :
    ((applyEditsR (newR h) es).2.data = (applyEditsR (newR h) es).2.cursor.data ∧
      Heap.get (applyEditsR (newR h) es).1 ((applyEditsR (newR h) es).2.cursor.data) =
        Heap.get (applyEditsR (newR h) es).1 ((applyEditsR (newR h) es).2.data)) ∧
    ((applyEditsR (from_fileR h contents path lexer) es).2.data =
        (applyEditsR (from_fileR h contents path lexer) es).2.cursor.data ∧
      Heap.get (applyEditsR (from_fileR h contents path lexer) es).1
          ((applyEditsR (from_fileR h contents path lexer) es).2.cursor.data) =
        Heap.get (applyEditsR (from_fileR h contents path lexer) es).1
          ((applyEditsR (from_fileR h contents path lexer) es).2.data)) := by
  have h1 := applyEditsR_preserves_refs (newR h) es
  have h2 := applyEditsR_preserves_refs (from_fileR h contents path lexer) es
  have e1 : (applyEditsR (newR h) es).2.data = (applyEditsR (newR h) es).2.cursor.data := by
    rw [h1.1, h1.2]; rfl
  have e2 : (applyEditsR (from_fileR h contents path lexer) es).2.data =
      (applyEditsR (from_fileR h contents path lexer) es).2.cursor.data := by
    rw [h2.1, h2.2]; rfl
  exact ⟨⟨e1, by rw [e1]⟩, ⟨e2, by rw [e2]⟩⟩

/-- Claim C10: `save()` on a buffer with no path substitutes the empty path:
it behaves exactly as if the path were `Path::new("")`, attempting the open
and write there and returning whatever error the file system produces for
the empty path, or `none` if both succeed. -/
theorem save_with_no_path_tries_empty_path (fs : Fs) (b : Buffer) (h : b.path = none) :
    Buffer.save fs b = Buffer.save fs { b with path := some emptyPath } ∧
    (∀ e, fs.openWriteError emptyPath = some e → (Buffer.save fs b).1 = some e) ∧
    (fs.openWriteError emptyPath = none → fs.writeError emptyPath = none →
      (Buffer.save fs b).1 = none ∧
      getFile (Buffer.save fs b).2.files emptyPath = some b.data_) := by
  refine ⟨?_, ?_, ?_⟩
  · simp [Buffer.save, h, Buffer.data_, GapBuffer.to_string]
  · intro e he
    simp [Buffer.save, h, he]
  · intro h1 h2
    constructor
    · simp [Buffer.save, h, h1, h2]
    · simp [Buffer.save, h, h1, h2, getFile, setFile]

/-- Witness for C10: a path-less buffer saved on a file system that fails
opens of the empty path gets that error back. -/
theorem save_with_no_path_tries_empty_path_witness :
    (Buffer.save
        { files := [],
          openWriteError := fun _ => some { code := 2 },
          writeError := fun _ => none }
        sampleBuffer).1 = some { code := 2 } :=
  (save_with_no_path_tries_empty_path
      { files := [],
        openWriteError := fun _ => some { code := 2 },
        writeError := fun _ => none }
      sampleBuffer rfl).2.1 { code := 2 } rfl

end Scribe



